import Mathlib

/-!
Shallow embedding of the book-search pipeline of `search_service.py`
(`BookSearchService`): fetch with dedup and author expansion, literary
filter, genre synthesis, scoring/sorting, conversion and pagination.

Modelling conventions:
* Upstream JSON fields are `Option`-typed; `none` is an absent field
  (Python `dict.get` default path).
* Python exceptions (`IndexError` on `[][0]`, `requests` / JSON decode
  errors) are modelled with `Except Unit`.
* Each HTTP request is an oracle `env : String → Resp` from the query
  string to the outcome of `requests.get(...).json()`: `Resp.fail` is a
  raised exception (network error or non-decodable body), `Resp.ok items`
  a decoded body whose `items` field is `items` (`none` when absent/null).
* `difflib.get_close_matches` is abstracted as an oracle
  `fuzzy : String → String → Bool` (no claim depends on its value).
* The Python stable `list.sort(key=...)` is modelled as a stable insertion
  sort on precomputed keys; only permutation facts are used.
-/

namespace Bookshelf

/-- Python whitespace for `str.split()` (space, tab, LF, CR, VT, FF). -/
def pyIsSpace (c : Char) : Bool :=
  c = ' ' || c = '\t' || c = '\n' || c = '\r' || c = '\x0b' || c = '\x0c'

/-- Helper for `pySplit`: accumulates the current word (reversed). -/
def pySplitAux : List Char → List Char → List String
  | [], [] => []
  | [], cur => [⟨cur.reverse⟩]
  | c :: rest, cur =>
    if pyIsSpace c then
      if cur.isEmpty then pySplitAux rest []
      else ⟨cur.reverse⟩ :: pySplitAux rest []
    else pySplitAux rest (c :: cur)

/-- Python `str.split()` with no argument: split on whitespace runs,
no empty words. -/
def pySplit (s : String) : List String := pySplitAux s.data []

/-- Python `str.lower()` (ASCII-faithful). -/
def lowerStr (s : String) : String := ⟨s.data.map Char.toLower⟩

/-- Leading-segment test on character lists. -/
def leadsChars : List Char → List Char → Bool
  | [], _ => true
  | _ :: _, [] => false
  | a :: as, b :: bs => a = b && leadsChars as bs

/-- Contiguous-sublist test on character lists. -/
def subChars (n : List Char) : List Char → Bool
  | [] => n.isEmpty
  | c :: rest => leadsChars n (c :: rest) || subChars n rest

/-- Python `needle in hay` on strings: contiguous substring test. -/
def pyIn (needle hay : String) : Bool := subChars needle.data hay.data

/-- Python `str.isdigit()` (ASCII digits): non-empty and all digits. -/
def pyIsDigit (s : String) : Bool := !s.data.isEmpty && s.data.all (·.isDigit)

/-- Numeric value of a digit string, as `int(...)` computes it. -/
def digitsVal (cs : List Char) : Nat :=
  cs.foldl (fun n c => n * 10 + (c.toNat - 48)) 0

/-- Python `sep.join(l)`. -/
def joinSep (sep : String) : List String → String
  | [] => ""
  | [s] => s
  | s :: rest => s ++ sep ++ joinSep sep rest

/-- Python truthiness of an optional string: absent and `""` are falsy. -/
def optStrTruthy : Option String → Bool
  | none => false
  | some s => !s.isEmpty

/-- Stable insertion of `x` into `l`: `x` goes after every earlier
element `y` with `le y x` (models stability of the Python sort). -/
def stableInsert (le : α → α → Bool) (x : α) : List α → List α
  | [] => [x]
  | y :: ys => if le y x then y :: stableInsert le x ys else x :: y :: ys

/-- Stable sort by a boolean relation; models Python `list.sort`. -/
def stableSort (le : α → α → Bool) : List α → List α
  | [] => []
  | x :: xs => stableInsert le x (stableSort le xs)

theorem stableInsert_perm (le : α → α → Bool) (x : α) (l : List α) :
    List.Perm (stableInsert le x l) (x :: l) := by
  induction l with
  | nil => simp [stableInsert]
  | cons y ys ih =>
    simp only [stableInsert]
    split
    · exact ((ih.cons y).trans (List.Perm.swap x y ys))
    · exact List.Perm.refl _

theorem stableSort_perm (le : α → α → Bool) (l : List α) :
    List.Perm (stableSort le l) l := by
  induction l with
  | nil => simp [stableSort]
  | cons x xs ih =>
    exact (stableInsert_perm le x (stableSort le xs)).trans (ih.cons x)

/-! ## Data model -/

/-- The `volumeInfo` sub-record of a raw catalog item.  All fields are
optional (`none` = absent). `imageLinks` is the raw dict as an
association list. -/
structure VolumeInfo where
  language : Option String := none
  publishedDate : Option String := none
  title : Option String := none
  description : Option String := none
  authors : Option (List String) := none
  categories : Option (List String) := none
  imageLinks : Option (List (String × String)) := none
  deriving DecidableEq, Repr

/-- A raw catalog item: `id` plus `volumeInfo` (an absent `volumeInfo`
is the record with all fields absent, matching `item.get("volumeInfo", {})`). -/
structure Item where
  id : Option String := none
  volumeInfo : VolumeInfo := {}
  deriving DecidableEq, Repr

/-- The normalized record produced by `convert`. -/
structure NBR where
  id : Option String
  title : Option String
  authors : String
  thumbnail : Option String
  description : String
  year : String
  genres : String
  deriving DecidableEq, Repr

/-- The service configuration: constructor arguments `query` and `sort`. -/
structure Svc where
  query : String
  sort : String
  deriving DecidableEq, Repr

/-- Embeds `self.per_page`. -/
def per_page : Nat := 12

/-- Embeds `self.banned`. -/
def bannedList : List String :=
  ["geology", "sediment", "ecology", "vegetation",
   "analysis", "report", "basin", "reservoir",
   "gas", "management", "erosion", "university",
   "survey", "research", "study"]

/-- Embeds `self.literary_clues`. -/
def literaryClues : List String :=
  ["fiction", "fantasy", "novel", "science fiction", "sci-fi",
   "epic", "adventure", "romance", "thriller", "space",
   "galactic", "hero", "saga", "chronicles", "series"]

/-- The keyword→label `mapping` of `extract_genres`. -/
def genreMapping : List (String × String) :=
  [("fantasy", "Fantasy"),
   ("epic", "Epic"),
   ("science fiction", "Science Fiction"),
   ("sci-fi", "Science Fiction"),
   ("space", "Science Fiction"),
   ("galactic", "Science Fiction"),
   ("magic", "Fantasy"),
   ("hero", "Fantasy"),
   ("adventure", "Adventure"),
   ("dystopian", "Dystopian")]

/-! ## Pagination (`get_page`) -/

/-- Normalize one Python slice index for a list of length `len`. -/
def pySliceIndex (len : Nat) (i : Int) : Nat :=
  if i < 0 then (i + len).toNat else min i.toNat len

/-- Python `l[a:b]` for integer indices. -/
def pySlice (l : List α) (a b : Int) : List α :=
  (l.drop (pySliceIndex l.length a)).take
    (pySliceIndex l.length b - pySliceIndex l.length a)

/-- Embeds `get_page`: slice `[(page-1)*per_page : page*per_page]`. -/
def get_page (all_results : List α) (page : Int) : List α :=
  pySlice all_results ((page - 1) * (per_page : Int)) (page * (per_page : Int))

/-! ## Fetch stage -/

/-- Outcome of one `requests.get(self.url, params=params).json()` call:
`fail` is a raised exception (network error, non-decodable body);
`ok items` is a decoded payload whose `items` field holds `items`
(`none` when the field is absent or null, as in an error-status body). -/
inductive Resp where
  | fail : Resp
  | ok : Option (List Item) → Resp
  deriving DecidableEq, Repr

/-- Embeds `bid = item.get("id")` followed by the truthiness test `if bid`:
yields the id string only when present and non-empty. -/
def truthyId (item : Item) : Option String :=
  match item.id with
  | none => none
  | some s => if s.isEmpty then none else some s

/-- The inner dedup loop over the items of one response:
`if bid and bid not in seen: seen.add(bid); results.append(item)`. -/
def addItems : List String → List Item → List Item → (List String × List Item)
  | seen, results, [] => (seen, results)
  | seen, results, it :: rest =>
    match truthyId it with
    | none => addItems seen results rest
    | some s =>
      if s ∈ seen then addItems seen results rest
      else addItems (s :: seen) (results ++ [it]) rest

/-- One pass of `fetch_raw_results` over a list of query strings: each
request either raises (aborting the pass) or contributes
`resp.get("items", []) or []`. -/
def fetchLoop (env : String → Resp) :
    List String → List String → List Item → Except Unit (List String × List Item)
  | [], seen, results => .ok (seen, results)
  | q :: rest, seen, results =>
    match env q with
    | .fail => .error ()
    | .ok items =>
      fetchLoop env rest (addItems seen results (items.getD [])).1
        (addItems seen results (items.getD [])).2

/-- Embeds `is_ambiguous_title`. -/
def is_ambiguous_title (svc : Svc) : Bool :=
  let words := pySplit svc.query
  2 ≤ words.length && words.all (fun w => 3 < w.length)
    && !(words.any (fun w => pyIsDigit w))

/-- Embeds `extract_authors`: author strings of ≥ 2 words, deduplicated.
(The Python code materializes a `set`; its iteration order is modelled
as first-encounter order, which no claim depends on.) -/
def extract_authors (items : List Item) : List String :=
  ((items.map (fun it => it.volumeInfo.authors.getD [])).flatten.filter
    (fun a => 2 ≤ (pySplit a).length)).dedup

/-- The three first-pass query strings. -/
def baseQueries (svc : Svc) : List String :=
  ["intitle:\x22" ++ svc.query ++ "\x22",
   "intitle:" ++ svc.query,
   svc.query]

/-- The query string of one author-expansion request. -/
def authorQuery (svc : Svc) (author : String) : String :=
  svc.query ++ " inauthor:\x22" ++ author ++ "\x22"

/-- Embeds `fetch_raw_results`: first pass over the three variants, then (for
ambiguous titles) the author-expansion pass over at most 5 authors,
sharing the same dedup set. -/
def fetch_raw_results (svc : Svc) (env : String → Resp) :
    Except Unit (List Item) :=
  match fetchLoop env (baseQueries svc) [] [] with
  | .error e => .error e
  | .ok p =>
    if is_ambiguous_title svc then
      match fetchLoop env
          (((extract_authors p.2).take 5).map (authorQuery svc)) p.1 p.2 with
      | .error e => .error e
      | .ok p2 => .ok p2.2
    else .ok p.2

/-! ## Literary filter -/

/-- The year guard of `is_literary`: a parseable 4-digit year before
1900 rejects the item. -/
def oldYearGuard (vi : VolumeInfo) : Bool :=
  let pub := vi.publishedDate.getD ""
  4 ≤ pub.data.length && pyIsDigit ⟨pub.data.take 4⟩
    && digitsVal (pub.data.take 4) < 1900

/-- Embeds `combined_text = title + " " + desc` (both lower-cased). -/
def combinedText (vi : VolumeInfo) : String :=
  lowerStr (vi.title.getD "") ++ " " ++ lowerStr (vi.description.getD "")

/-- The significant query tokens: lower-cased words of length > 3. -/
def queryWords (svc : Svc) : List String :=
  (pySplit (lowerStr svc.query)).filter (fun w => 3 < w.length)

/-- Embeds `is_literary`. -/
def is_literary (svc : Svc) (item : Item) : Bool :=
  let info := item.volumeInfo
  if info.language ≠ some "en" then false
  else if oldYearGuard info then false
  else
    let title := lowerStr (info.title.getD "")
    let authors := lowerStr (joinSep " " (info.authors.getD []))
    let categories := (info.categories.getD []).map lowerStr
    let qws := queryWords svc
    let has_cover := match info.imageLinks with
      | none => false
      | some d => !d.isEmpty
    if bannedList.any (fun w => pyIn w (combinedText info)) then false
    else
      let title_matches := (qws.filter (fun w => pyIn w title)).length
      if !qws.isEmpty && decide (max 2 (qws.length - 1) ≤ title_matches) then true
      else
        let author_matches := (qws.filter (fun w => pyIn w authors)).length
        if 1 ≤ author_matches && 2 ≤ qws.length then true
        else if categories.any (fun c => literaryClues.any (fun k => pyIn k c)) then
          true
        else has_cover

/-- Embeds `filter_results`. -/
def filter_results (svc : Svc) (raw : List Item) : List Item :=
  raw.filter (is_literary svc)

/-! ## Genre synthesis -/

/-- The categories kept by `extract_genres`: those whose lower-casing is
not a banned keyword (exact set membership, not substring). -/
def catLabels (vi : VolumeInfo) : List String :=
  (vi.categories.getD []).filter (fun c => !(bannedList.contains (lowerStr c)))

/-- The `text` scanned by `extract_genres`:
`(info.get("title", "") + " " + (info.get("description") or "")).lower()`. -/
def genreText (vi : VolumeInfo) : String :=
  lowerStr (vi.title.getD "" ++ " " ++ vi.description.getD "")

/-- The labels contributed by the keyword→label mapping. -/
def mapLabels (vi : VolumeInfo) : List String :=
  (genreMapping.filter (fun m => pyIn m.1 (genreText vi))).map (fun m => m.2)

/-- The label set `genres` accumulated by `extract_genres` (as a
deduplicated list; Python uses a `set`, whose iteration order is
irrelevant because the output is sorted). -/
def derived_labels (vi : VolumeInfo) : List String :=
  (catLabels vi ++ mapLabels vi).dedup

/-- Embeds `extract_genres`: "Unknown" on an empty label set, otherwise the
labels sorted lexicographically and joined with ", ". -/
def extract_genres (vi : VolumeInfo) : String :=
  if (derived_labels vi).isEmpty then "Unknown"
  else joinSep ", " (stableSort (fun a b : String => a ≤ b) (derived_labels vi))

/-! ## Scoring and sorting -/

/-- Embeds `fuzzy_score`; `fuzzy` abstracts
`get_close_matches(q, [t], cutoff=0.6)` being non-empty. -/
def fuzzy_score (svc : Svc) (fuzzy : String → String → Bool)
    (title authorsFull : String) : Nat :=
  let t := lowerStr title
  let a := lowerStr authorsFull
  let q := lowerStr svc.query
  let exact := if t = q then 1 else 0
  let contains := if pyIn q t then 1 else 0
  let author_hit := if pyIn q a then 1 else 0
  let fz := if fuzzy q t then 1 else 0
  let word_hits := ((pySplit q).filter (fun w => pyIn w t)).length
  exact * 10 + contains * 6 + author_hit * 5 + fz * 3 + word_hits * 2

/-- Sort keys: an `Int` or `String` primary key and the lower-cased
title as secondary key. -/
abbrev SortKey := (Int ⊕ String) × String

/-- Comparison on primary keys (the two summands never mix within one
run; the cross cases are fixed arbitrarily to keep the order total). -/
def primLe : Int ⊕ String → Int ⊕ String → Bool
  | .inl a, .inl b => a ≤ b
  | .inr a, .inr b => a ≤ b
  | .inl _, .inr _ => true
  | .inr _, .inl _ => false

/-- Python tuple comparison on sort keys. -/
def keyLe (k1 k2 : SortKey) : Bool :=
  (primLe k1.1 k2.1 && !(primLe k2.1 k1.1))
    || (k1.1 = k2.1 && k1.2 ≤ k2.2)

/-- Embeds `info.get("authors", [""])[0]`: absent authors default to `[""]`
whose first element is `""`; a present but empty author list raises
`IndexError`. -/
def firstAuthor : Option (List String) → Except Unit String
  | none => .ok ""
  | some [] => .error ()
  | some (a :: _) => .ok a

/-- The `key` function of `sort_results`.  The author access runs before
the sort-mode branch, in every mode. -/
def sortKey (svc : Svc) (fuzzy : String → String → Bool) (item : Item) :
    Except Unit SortKey :=
  let info := item.volumeInfo
  let title := info.title.getD ""
  match firstAuthor info.authors with
  | .error e => .error e
  | .ok a0 =>
    let pub := info.publishedDate.getD ""
    let year : Int :=
      if 4 ≤ pub.data.length && pyIsDigit ⟨pub.data.take 4⟩ then
        (digitsVal (pub.data.take 4) : Int)
      else 0
    if svc.sort = "year" then
      .ok (.inl (-year), lowerStr title)
    else if svc.sort = "author" then
      .ok (.inr (lowerStr a0), lowerStr title)
    else
      let authors_full := joinSep " " (info.authors.getD [])
      .ok (.inl (-(fuzzy_score svc fuzzy title authors_full : Int)), lowerStr title)

/-- Map over `Except`, stopping at the first raised exception (the order
in which the Python sort evaluates the key function). -/
def mapE (f : α → Except Unit β) : List α → Except Unit (List β)
  | [] => .ok []
  | a :: as =>
    match f a with
    | .error e => .error e
    | .ok b =>
      match mapE f as with
      | .error e => .error e
      | .ok bs => .ok (b :: bs)

/-- Embeds `sort_results`: compute every key, then sort stably by key. -/
def sort_results (svc : Svc) (fuzzy : String → String → Bool)
    (results : List Item) : Except Unit (List Item) :=
  match mapE (fun it => (sortKey svc fuzzy it).map (fun k => (k, it))) results with
  | .error e => .error e
  | .ok pairs => .ok ((stableSort (fun p q => keyLe p.1 q.1) pairs).map (fun p => p.2))

/-! ## Conversion and the full pipeline -/

/-- Embeds `convert`: raw item to the normalized template record. -/
def convert (item : Item) : NBR :=
  let info := item.volumeInfo
  let pub := info.publishedDate.getD ""
  let year := if 4 ≤ pub.data.length && pyIsDigit ⟨pub.data.take 4⟩ then
      (⟨pub.data.take 4⟩ : String)
    else ""
  { id := item.id
    title := info.title
    authors := joinSep ", " (info.authors.getD [])
    thumbnail := ((info.imageLinks.getD []).lookup "thumbnail")
    description := info.description.getD ""
    year := year
    genres := extract_genres info }

/-- Embeds `process`: fetch, filter, sort, convert. -/
def process (svc : Svc) (env : String → Resp)
    (fuzzy : String → String → Bool) : Except Unit (List NBR) :=
  match fetch_raw_results svc env with
  | .error e => .error e
  | .ok raw =>
    match sort_results svc fuzzy (filter_results svc raw) with
    | .error e => .error e
    | .ok sorted => .ok (sorted.map convert)

/-! ## Theorems -/

/-- Auxiliary: clamped drop/take as in `pySlice` equals plain drop/take. -/
theorem drop_take_clamp {α : Type} (l : List α) (a k : Nat) :
    (l.drop (min a l.length)).take (min (a + k) l.length - min a l.length)
      = (l.drop a).take k := by
  rcases le_or_lt l.length a with hla | hla
  · rw [min_eq_right hla, min_eq_right (le_trans hla (Nat.le_add_right a k)),
      Nat.sub_self, List.take_zero, List.drop_eq_nil_of_le hla, List.take_nil]
  · rw [min_eq_left hla.le]
    rcases le_or_lt (a + k) l.length with h2 | h2
    · rw [min_eq_left h2, Nat.add_sub_cancel_left]
    · rw [min_eq_right h2.le,
        List.take_of_length_le (by rw [List.length_drop]),
        List.take_of_length_le (by rw [List.length_drop]; omega)]

/-- Auxiliary: `get_page` for a positive page is plain drop/take. -/
theorem get_page_eq_drop_take {α : Type} (l : List α) (page : Int)
    (hp : 1 ≤ page) :
    get_page l page = (l.drop ((page - 1) * (per_page : Int)).toNat).take per_page := by
  have h0 : 0 ≤ (page - 1) * (per_page : Int) :=
    mul_nonneg (by omega) (by exact_mod_cast Nat.zero_le per_page)
  have h0' : 0 ≤ page * (per_page : Int) :=
    mul_nonneg (by omega) (by exact_mod_cast Nat.zero_le per_page)
  have hs : pySliceIndex l.length ((page - 1) * (per_page : Int))
      = min ((page - 1) * (per_page : Int)).toNat l.length := by
    rw [pySliceIndex, if_neg (not_lt.mpr h0)]
  have he : pySliceIndex l.length (page * (per_page : Int))
      = min (((page - 1) * (per_page : Int)).toNat + per_page) l.length := by
    rw [pySliceIndex, if_neg (not_lt.mpr h0')]
    congr 1
    have hx : page * (per_page : Int) = (page - 1) * (per_page : Int) + (per_page : Int) := by
      ring
    rw [hx]
    omega
  unfold get_page pySlice
  rw [hs, he, drop_take_clamp]

/-- C5: for every result list and every page `≥ 1`, `get_page` returns
exactly the slice `[(page-1)*per_page, page*per_page)`; its length is at
most `per_page`, and a page beyond the end of the list yields `[]`. -/
theorem c5_get_page_contract {α : Type} (l : List α) (page : Int)
    (hp : 1 ≤ page) :
    get_page l page = (l.drop ((page - 1) * (per_page : Int)).toNat).take per_page
    ∧ (get_page l page).length ≤ per_page
    ∧ ((l.length : Int) ≤ (page - 1) * (per_page : Int) → get_page l page = []) := by
  have key := get_page_eq_drop_take l page hp
  refine ⟨key, ?_, ?_⟩
  · rw [key, List.length_take]
    exact min_le_left _ _
  · intro hle
    have hnat : l.length ≤ ((page - 1) * (per_page : Int)).toNat := by
      generalize hz : (page - 1) * (per_page : Int) = z at hle ⊢
      omega
    rw [key, List.drop_eq_nil_of_le hnat]
    simp

/-- Witness for C5 at page 3 on a 30-element list. -/
theorem c5_get_page_contract_witness :
    get_page (List.range 30) 3
        = ((List.range 30).drop (((3 : Int) - 1) * (per_page : Int)).toNat).take per_page
    ∧ (get_page (List.range 30) 3).length ≤ per_page
    ∧ (((List.range 30).length : Int) ≤ ((3 : Int) - 1) * (per_page : Int) →
        get_page (List.range 30) 3 = []) :=
  c5_get_page_contract (List.range 30) 3 (by decide)

/-- C10: `get_page` does not validate its page argument: page 0 yields
`[]`, but page `-1` on a 30-element list yields a non-empty slice whose
position is determined by offsets from the end of the list (Python
negative slice indexing). -/
theorem c10_no_page_validation :
    (∀ (l : List Nat), get_page l 0 = [])
    ∧ get_page (List.range 30) (-1) ≠ []
    ∧ get_page (List.range 30) (-1)
        = ((List.range 30).drop ((List.range 30).length - 2 * per_page)).take per_page := by
  refine ⟨?_, by decide, by decide⟩
  intro l
  show pySlice l (((0 : Int) - 1) * (per_page : Int)) ((0 : Int) * (per_page : Int)) = []
  have he : pySliceIndex l.length ((0 : Int) * (per_page : Int)) = 0 := by
    rw [pySliceIndex, if_neg (by simp [per_page])]
    simp
  unfold pySlice
  rw [he]
  simp

/-! ### Concrete fixtures -/

/-- A one-word (non-ambiguous) service configuration. -/
def svcDune : Svc := ⟨"dune", "relevance"⟩

/-- An English item with a literary category. -/
def itemFiction : Item :=
  { id := some "a",
    volumeInfo := { language := some "en", title := some "Dune",
                    categories := some ["Fiction"] } }

/-- The same catalog data as `itemFiction` but with an absent language
code. -/
def itemNoLang : Item :=
  { id := some "a",
    volumeInfo := { title := some "Dune", categories := some ["Fiction"] } }

/-- An English item whose title contains the banned keyword `geology`. -/
def itemGeo : Item :=
  { id := some "g",
    volumeInfo := { language := some "en", title := some "Geology of Mars",
                    categories := some ["Fiction"] } }

/-! ### C2: language rule -/

/-- C2 counterexample: an item with an *absent* language code is
rejected by `is_literary`, even though the identical item with language
`"en"` is accepted — so rejection is due to the absence of the language
code, contradicting the claim that absent language skips to the later
rules. -/
theorem c2_language_counterexample :
    is_literary svcDune itemNoLang = false
    ∧ itemNoLang.volumeInfo.language = none
    ∧ is_literary svcDune itemFiction = true
    ∧ itemFiction = { itemNoLang with volumeInfo :=
        { itemNoLang.volumeInfo with language := some "en" } } := by
  refine ⟨by decide, rfl, by decide, rfl⟩

/-- C2 amended: the filter rejects every item whose language code is not
exactly `some "en"` — in particular an absent language code is rejected
rather than passed on to the later rules. -/
theorem c2_language_guard (svc : Svc) (item : Item)
    (h : item.volumeInfo.language ≠ some "en") :
    is_literary svc item = false := by
  simp only [is_literary]
  rw [if_pos h]

/-- Witness for C2 at a concrete item with absent language. -/
theorem c2_language_guard_witness : is_literary svcDune itemNoLang = false :=
  c2_language_guard svcDune itemNoLang (by decide)

/-! ### C7: banned keywords -/

/-- C7: once the language and year guards pass, any banned keyword
occurring as a substring of the lower-cased `title + " " + description`
forces rejection, regardless of title/author/category matches or cover. -/
theorem c7_banned_keyword_rejects (svc : Svc) (item : Item)
    (hlang : item.volumeInfo.language = some "en")
    (hyear : oldYearGuard item.volumeInfo = false)
    (hban : ∃ w ∈ bannedList, pyIn w (combinedText item.volumeInfo) = true) :
    is_literary svc item = false := by
  have hany : bannedList.any (fun w => pyIn w (combinedText item.volumeInfo)) = true :=
    List.any_eq_true.mpr (by obtain ⟨w, hw, hp⟩ := hban; exact ⟨w, hw, hp⟩)
  simp [is_literary, hlang, hyear, hany]

/-- Witness for C7: `"geology"` in the title rejects the item despite
its literary category. -/
theorem c7_banned_keyword_rejects_witness : is_literary svcDune itemGeo = false :=
  c7_banned_keyword_rejects svcDune itemGeo rfl (by decide)
    ⟨"geology", by decide, by decide⟩

/-! ### C8: filter idempotence -/

/-- C8: the literary filter is idempotent — filtering an already
filtered list changes nothing. -/
theorem c8_filter_idempotent (svc : Svc) (l : List Item) :
    filter_results svc (filter_results svc l) = filter_results svc l := by
  simp [filter_results, List.filter_filter]

/-! ### C6: genre synthesis -/

/-- A non-empty string has positive length. -/
theorem str_pos_of_ne_empty {s : String} (h : s ≠ "") : 0 < s.length := by
  cases s with
  | mk data =>
    cases data with
    | nil => exact absurd rfl h
    | cons c cs => simp [String.length]

/-- Any member of a joined list bounds the length of the joined string. -/
theorem length_le_joinSep (sep : String) :
    ∀ (l : List String) (s : String), s ∈ l → s.length ≤ (joinSep sep l).length := by
  intro l
  induction l with
  | nil => intro s h; simp at h
  | cons a t ih =>
    intro s h
    cases t with
    | nil =>
      have : s = a := by simpa using h
      subst this
      simp [joinSep]
    | cons b u =>
      have hj : joinSep sep (a :: b :: u) = a ++ sep ++ joinSep sep (b :: u) := rfl
      rw [hj, String.length_append, String.length_append]
      rcases List.mem_cons.mp h with rfl | hmem
      · omega
      · have := ih s hmem
        omega

/-- A non-empty derived label forces a non-empty genres string. -/
theorem extract_genres_ne_empty (vi : VolumeInfo) (s : String)
    (hs : s ∈ derived_labels vi) (hne : s ≠ "") : extract_genres vi ≠ "" := by
  have hnonempty : (derived_labels vi).isEmpty = false := by
    cases hdl : derived_labels vi with
    | nil => rw [hdl] at hs; simp at hs
    | cons x xs => simp
  rw [extract_genres, hnonempty]
  simp only [Bool.false_eq_true, if_false]
  have hmem : s ∈ stableSort (fun a b : String => a ≤ b) (derived_labels vi) :=
    ((stableSort_perm _ _).mem_iff).mpr hs
  have hlen := length_le_joinSep ", " _ s hmem
  have hpos := str_pos_of_ne_empty hne
  intro hcontr
  rw [hcontr] at hlen
  have hzero : ("" : String).length = 0 := rfl
  omega

/-- A kept category is a derived label. -/
theorem mem_derived_labels_of_cat (vi : VolumeInfo) (c : String)
    (hc : c ∈ vi.categories.getD [])
    (hb : bannedList.contains (lowerStr c) = false) :
    c ∈ derived_labels vi := by
  rw [derived_labels, List.mem_dedup]
  exact List.mem_append_left _ (List.mem_filter.mpr ⟨hc, by rw [hb]; rfl⟩)

/-- A keyword hit contributes its label to the derived labels. -/
theorem mem_derived_labels_of_hit (vi : VolumeInfo) (m : String × String)
    (hm : m ∈ genreMapping) (hhit : pyIn m.1 (genreText vi) = true) :
    m.2 ∈ derived_labels vi := by
  rw [derived_labels, List.mem_dedup]
  exact List.mem_append_right _
    (List.mem_map.mpr ⟨m, List.mem_filter.mpr ⟨hm, hhit⟩, rfl⟩)

/-- C6 counterexample: an item with the literal category `"Unknown"`
yields the output `"Unknown"` from a *non-empty* derived label set, so
the output `"Unknown"` does not characterize an empty label set. -/
theorem c6_counterexample :
    extract_genres { categories := some ["Unknown"] } = "Unknown"
    ∧ derived_labels { categories := some ["Unknown"] } = ["Unknown"] := by
  exact ⟨by decide, by decide⟩

/-- C6 amended: `extract_genres` returns `"Unknown"` whenever the
derived label set is empty; any kept non-empty category, and any keyword
hit, force a non-empty genres string (so the output is the sorted
comma-join of the labels, non-empty in those cases) — but the output
`"Unknown"` no longer implies an empty label set. -/
theorem c6_genres_contract (vi : VolumeInfo) :
    (derived_labels vi = [] → extract_genres vi = "Unknown")
    ∧ (∀ c, c ∈ vi.categories.getD [] →
        bannedList.contains (lowerStr c) = false → c ≠ "" →
        extract_genres vi ≠ "")
    ∧ (∀ m, m ∈ genreMapping → pyIn m.1 (genreText vi) = true →
        extract_genres vi ≠ "") := by
  refine ⟨?_, ?_, ?_⟩
  · intro h
    rw [extract_genres, h]
    rfl
  · intro c hc hb hne
    exact extract_genres_ne_empty vi c (mem_derived_labels_of_cat vi c hc hb) hne
  · intro m hm hhit
    have hlabel : m.2 ≠ "" := by
      have : ∀ p ∈ genreMapping, p.2 ≠ "" := by decide
      exact this m hm
    exact extract_genres_ne_empty vi m.2 (mem_derived_labels_of_hit vi m hm hhit) hlabel

/-- Witness for C6: the empty record falls back to "Unknown"; a kept
category and a keyword hit each force non-empty genres. -/
theorem c6_genres_contract_witness :
    extract_genres {} = "Unknown"
    ∧ extract_genres { categories := some ["Fiction"] } ≠ ""
    ∧ extract_genres { title := some "Space Opera" } ≠ "" :=
  ⟨(c6_genres_contract {}).1 (by decide),
   (c6_genres_contract { categories := some ["Fiction"] }).2.1 "Fiction"
     (by decide) (by decide) (by decide),
   (c6_genres_contract { title := some "Space Opera" }).2.2
     ("space", "Science Fiction") (by decide) (by decide)⟩

/-! ### C3: author sort key -/

/-- No fuzzy near-matches (a concrete instantiation of the
`get_close_matches` oracle). -/
def noFuzzy : String → String → Bool := fun _ _ => false

/-- The `author` sort configuration. -/
def svcAuthor : Svc := ⟨"some query", "author"⟩

/-- An item whose author list is present but empty. -/
def itemEmptyAuthors : Item :=
  { id := some "x", volumeInfo := { title := some "Some Title", authors := some [] } }

/-- An item whose author list is absent. -/
def itemAbsentAuthors : Item :=
  { id := some "y", volumeInfo := { title := some "Some Title" } }

/-- C3 evaluation at the failing input: with sort mode `author`, an item
with an *absent* author list gets the key `("", lower-cased title)` as
the claim states, but an item whose author list is present and *empty*
makes the key computation raise (`info.get("authors", [""])[0]` is
`[][0]`, an `IndexError`), so `sort_results` itself raises. -/
theorem c3_empty_author_list_raises :
    sortKey svcAuthor noFuzzy itemAbsentAuthors = .ok (.inr "", "some title")
    ∧ sortKey svcAuthor noFuzzy itemEmptyAuthors = .error ()
    ∧ sort_results svcAuthor noFuzzy [itemEmptyAuthors] = .error () :=
  ⟨rfl, rfl, rfl⟩

/-! ### Fetch invariants (C9, C4) -/

/-- Proves `truthyId it = some s` forces a present, non-empty id. -/
theorem truthyId_some {it : Item} {s : String} (h : truthyId it = some s) :
    it.id = some s ∧ s ≠ "" := by
  cases hid : it.id with
  | none => simp [truthyId, hid] at h
  | some t =>
    simp only [truthyId, hid] at h
    by_cases ht : t.isEmpty = true
    · rw [if_pos ht] at h; cases h
    · rw [if_neg ht] at h
      have hts : t = s := Option.some.inj h
      subst hts
      refine ⟨rfl, fun hc => ht ?_⟩
      rw [hc]
      rfl

/-- The dedup invariant: the truthy id of every collected item is in the seen
set, and the collected ids are pairwise distinct. -/
def FetchInv (seen : List String) (results : List Item) : Prop :=
  (∀ it ∈ results, ∃ s, truthyId it = some s ∧ s ∈ seen)
  ∧ (results.map Item.id).Nodup

theorem addItems_inv :
    ∀ (its : List Item) (seen : List String) (results : List Item),
      FetchInv seen results →
      FetchInv (addItems seen results its).1 (addItems seen results its).2 := by
  intro its
  induction its with
  | nil => intro seen results h; exact h
  | cons it rest ih =>
    intro seen results h
    cases hti : truthyId it with
    | none =>
      simp only [addItems, hti]
      exact ih seen results h
    | some s =>
      by_cases hseen : s ∈ seen
      · simp only [addItems, hti, if_pos hseen]
        exact ih seen results h
      · simp only [addItems, hti, if_neg hseen]
        apply ih
        constructor
        · intro it' hmem
          rcases List.mem_append.mp hmem with hold | hnew
          · obtain ⟨s', hs', hsseen⟩ := h.1 it' hold
            exact ⟨s', hs', List.mem_cons_of_mem _ hsseen⟩
          · have : it' = it := by simpa using hnew
            subst this
            exact ⟨s, hti, List.mem_cons_self _ _⟩
        · rw [List.map_append]
          refine List.Nodup.append h.2 (List.nodup_singleton _) ?_
          intro a ha ha'
          have haid : a = it.id := by simpa using ha'
          obtain ⟨it'', hit'', hid''⟩ := List.mem_map.mp ha
          obtain ⟨s'', hs'', hsseen''⟩ := h.1 it'' hit''
          have hid2 : it''.id = some s'' := (truthyId_some hs'').1
          have hit_id : it.id = some s := (truthyId_some hti).1
          have hss : s'' = s := by
            have hsome : some s'' = some s := by
              rw [← hid2, hid'', haid, hit_id]
            exact Option.some.inj hsome
          exact hseen (hss ▸ hsseen'')

theorem fetchLoop_inv (env : String → Resp) :
    ∀ (qs : List String) (seen : List String) (results : List Item)
      (p : List String × List Item),
      FetchInv seen results → fetchLoop env qs seen results = .ok p →
      FetchInv p.1 p.2 := by
  intro qs
  induction qs with
  | nil =>
    intro seen results p h hok
    have : (seen, results) = p := by
      simpa [fetchLoop] using hok
    rw [← this]
    exact h
  | cons q rest ih =>
    intro seen results p h hok
    simp only [fetchLoop] at hok
    cases henv : env q with
    | fail => rw [henv] at hok; cases hok
    | ok items =>
      rw [henv] at hok
      exact ih _ _ p (addItems_inv _ _ _ h) hok

/-- Reduction of `fetch_raw_results` once the first pass succeeds. -/
theorem fetch_raw_results_of_firstPass (svc : Svc) (env : String → Resp)
    (p : List String × List Item)
    (h1 : fetchLoop env (baseQueries svc) [] [] = .ok p) :
    fetch_raw_results svc env =
      if is_ambiguous_title svc then
        match fetchLoop env
            (((extract_authors p.2).take 5).map (authorQuery svc)) p.1 p.2 with
        | .error e => .error e
        | .ok p2 => .ok p2.2
      else .ok p.2 := by
  unfold fetch_raw_results
  rw [h1]

/-- The fetch stage maintains the dedup invariant end to end. -/
theorem fetch_raw_results_inv (svc : Svc) (env : String → Resp)
    (l : List Item) (h : fetch_raw_results svc env = .ok l) :
    (∀ it ∈ l, ∃ s, truthyId it = some s) ∧ (l.map Item.id).Nodup := by
  cases h1 : fetchLoop env (baseQueries svc) [] [] with
  | error e =>
    unfold fetch_raw_results at h
    rw [h1] at h
    cases h
  | ok p =>
    rw [fetch_raw_results_of_firstPass svc env p h1] at h
    have hp : FetchInv p.1 p.2 :=
      fetchLoop_inv env (baseQueries svc) [] [] p ⟨by simp, by simp⟩ h1
    by_cases hamb : is_ambiguous_title svc = true
    · rw [if_pos hamb] at h
      cases h2 : fetchLoop env
          (((extract_authors p.2).take 5).map (authorQuery svc)) p.1 p.2 with
      | error e => rw [h2] at h; cases h
      | ok p2 =>
        rw [h2] at h
        have hl : p2.2 = l := by simpa using h
        have hp2 := fetchLoop_inv env _ p.1 p.2 p2 hp h2
        rw [← hl]
        exact ⟨fun it hit => (hp2.1 it hit).imp (fun s hs => hs.1), hp2.2⟩
    · rw [if_neg hamb] at h
      have hl : p.2 = l := by simpa using h
      rw [← hl]
      exact ⟨fun it hit => (hp.1 it hit).imp (fun s hs => hs.1), hp.2⟩

/-- C9: every item surviving the fetch stage has a present, non-empty
catalog identifier (items with absent or empty ids are discarded). -/
theorem c9_fetched_ids_truthy (svc : Svc) (env : String → Resp)
    (l : List Item) (h : fetch_raw_results svc env = .ok l) :
    ∀ it ∈ l, ∃ s, it.id = some s ∧ s ≠ "" := by
  intro it hit
  obtain ⟨s, hs⟩ := (fetch_raw_results_inv svc env l h).1 it hit
  exact ⟨s, truthyId_some hs⟩

/-- An environment whose every request yields one good item and two
discarded ones (absent id, empty id). -/
def envBadIds : String → Resp := fun _ =>
  .ok (some [{ id := none, volumeInfo := { title := some "NoId" } },
             { id := some "", volumeInfo := { title := some "EmptyId" } },
             itemFiction])

/-- The concrete fetch result under `envBadIds`. -/
def fetchedBadIds : List Item :=
  (fetch_raw_results svcDune envBadIds).toOption.getD []

/-- Witness for C9: the surviving item of a fetch over `envBadIds`
carries the non-empty id `"a"`. -/
theorem c9_fetched_ids_truthy_witness : ∃ s, itemFiction.id = some s ∧ s ≠ "" :=
  c9_fetched_ids_truthy svcDune envBadIds fetchedBadIds rfl itemFiction (by decide)

/-! ### C4: no duplicate identifiers -/

/-- If `mapE f` succeeds and `g` undoes `f`, the output maps back to the
input. -/
theorem mapE_ok_map_eq {α β : Type} (f : α → Except Unit β) (g : β → α)
    (hf : ∀ a b, f a = .ok b → g b = a) :
    ∀ (l : List α) (bs : List β), mapE f l = .ok bs → bs.map g = l := by
  intro l
  induction l with
  | nil =>
    intro bs h
    have : ([] : List β) = bs := by simpa [mapE] using h
    rw [← this]
    rfl
  | cons a as ih =>
    intro bs h
    simp only [mapE] at h
    cases hfa : f a with
    | error e => rw [hfa] at h; cases h
    | ok b =>
      rw [hfa] at h
      cases hrest : mapE f as with
      | error e => rw [hrest] at h; cases h
      | ok bs' =>
        rw [hrest] at h
        have : b :: bs' = bs := by simpa using h
        rw [← this, List.map_cons, hf a b hfa, ih bs' hrest]

/-- A successful `sort_results` permutes its input. -/
theorem sort_results_perm (svc : Svc) (fuzzy : String → String → Bool)
    (results sorted : List Item)
    (h : sort_results svc fuzzy results = .ok sorted) :
    List.Perm sorted results := by
  unfold sort_results at h
  cases hm : mapE (fun it => (sortKey svc fuzzy it).map (fun k => (k, it))) results with
  | error e => rw [hm] at h; cases h
  | ok pairs =>
    rw [hm] at h
    have hsorted : (stableSort (fun p q => keyLe p.1 q.1) pairs).map (fun p => p.2)
        = sorted := by simpa using h
    have hsnd : pairs.map (fun p => p.2) = results := by
      refine mapE_ok_map_eq _ _ ?_ results pairs hm
      intro a b hab
      cases hk : sortKey svc fuzzy a with
      | error e => rw [hk] at hab; cases hab
      | ok k =>
        rw [hk] at hab
        have : (k, a) = b := by simpa [Except.map] using hab
        rw [← this]
    rw [← hsorted, ← hsnd]
    exact (stableSort_perm _ pairs).map (fun p => p.2)

/-- C4: no two items of a successful fetch share a catalog identifier,
and neither do two records of a successful `process` run. -/
theorem c4_no_duplicate_ids :
    (∀ (svc : Svc) (env : String → Resp) (l : List Item),
      fetch_raw_results svc env = .ok l → (l.map Item.id).Nodup)
    ∧ (∀ (svc : Svc) (env : String → Resp) (fuzzy : String → String → Bool)
        (out : List NBR),
      process svc env fuzzy = .ok out → (out.map NBR.id).Nodup) := by
  constructor
  · intro svc env l h
    exact (fetch_raw_results_inv svc env l h).2
  · intro svc env fuzzy out h
    unfold process at h
    cases h1 : fetch_raw_results svc env with
    | error e => rw [h1] at h; cases h
    | ok raw =>
      rw [h1] at h
      dsimp only at h
      cases h2 : sort_results svc fuzzy (filter_results svc raw) with
      | error e => rw [h2] at h; cases h
      | ok sorted =>
        rw [h2] at h
        have hout : sorted.map convert = out := by simpa using h
        have hraw : (raw.map Item.id).Nodup := (fetch_raw_results_inv svc env raw h1).2
        have hfil : ((filter_results svc raw).map Item.id).Nodup :=
          List.Nodup.sublist (List.Sublist.map _ (List.filter_sublist raw)) hraw
        have hperm : List.Perm sorted (filter_results svc raw) :=
          sort_results_perm svc fuzzy _ sorted h2
        have hsorted : (sorted.map Item.id).Nodup :=
          List.Perm.nodup ((hperm.map Item.id).symm) hfil
        have hmm : (sorted.map convert).map NBR.id = sorted.map Item.id := by
          rw [List.map_map]
          rfl
        rw [← hout, hmm]
        exact hsorted

/-- An environment issuing the same item twice (plus an item that fails
the literary filter) on every request. -/
def envDup : String → Resp := fun _ => .ok (some [itemFiction, itemGeo, itemFiction])

/-- The concrete fetch result under `envDup`. -/
def fetchedDup : List Item := (fetch_raw_results svcDune envDup).toOption.getD []

/-- The concrete `process` output under `envDup`. -/
def processedDup : List NBR := (process svcDune envDup noFuzzy).toOption.getD []

/-- Witness for C4: distinct ids after a concrete fetch and a concrete
full `process` run. -/
theorem c4_no_duplicate_ids_witness :
    (fetchedDup.map Item.id).Nodup ∧ (processedDup.map NBR.id).Nodup :=
  ⟨c4_no_duplicate_ids.1 svcDune envDup fetchedDup rfl,
   c4_no_duplicate_ids.2 svcDune envDup noFuzzy processedDup rfl⟩

/-! ### C1: failure handling in the fetch stage -/

/-- What `fetch_raw_results` observes of one response: an exception, or
the item list `resp.get("items", []) or []`. -/
def respNorm : Resp → Except Unit (List Item)
  | .fail => .error ()
  | .ok items => .ok (items.getD [])

/-- Lemma: `fetchLoop` only depends on the observed part of each response. -/
theorem fetchLoop_congr (env env' : String → Resp)
    (hq : ∀ q, respNorm (env q) = respNorm (env' q)) :
    ∀ (qs : List String) (seen : List String) (results : List Item),
      fetchLoop env qs seen results = fetchLoop env' qs seen results := by
  intro qs
  induction qs with
  | nil => intro seen results; rfl
  | cons q rest ih =>
    intro seen results
    have h := hq q
    cases h1 : env q with
    | fail =>
      cases h2 : env' q with
      | fail => simp only [fetchLoop, h1, h2]
      | ok i2 => rw [h1, h2] at h; simp [respNorm] at h
    | ok i1 =>
      cases h2 : env' q with
      | fail => rw [h1, h2] at h; simp [respNorm] at h
      | ok i2 =>
        rw [h1, h2] at h
        simp only [respNorm, Except.ok.injEq] at h
        simp only [fetchLoop, h1, h2, h]
        exact ih _ _

/-- Lemma: `fetch_raw_results` only depends on the observed part of each
response. -/
theorem fetch_raw_results_congr (svc : Svc) (env env' : String → Resp)
    (hq : ∀ q, respNorm (env q) = respNorm (env' q)) :
    fetch_raw_results svc env = fetch_raw_results svc env' := by
  unfold fetch_raw_results
  rw [fetchLoop_congr env env' hq (baseQueries svc) [] []]
  cases h1 : fetchLoop env' (baseQueries svc) [] [] with
  | error e => rfl
  | ok p =>
    by_cases hamb : is_ambiguous_title svc = true
    · simp only [hamb, if_true]
      rw [fetchLoop_congr env env' hq _ p.1 p.2]
    · simp only [hamb, Bool.false_eq_true, if_false]

/-- With no raised exceptions, `fetchLoop` always succeeds. -/
theorem fetchLoop_ok (env : String → Resp) (hfail : ∀ q, env q ≠ .fail) :
    ∀ (qs : List String) (seen : List String) (results : List Item),
      ∃ p, fetchLoop env qs seen results = .ok p := by
  intro qs
  induction qs with
  | nil => intro seen results; exact ⟨(seen, results), rfl⟩
  | cons q rest ih =>
    intro seen results
    cases h1 : env q with
    | fail => exact absurd h1 (hfail q)
    | ok items =>
      obtain ⟨p, hp⟩ := ih (addItems seen results (items.getD [])).1
        (addItems seen results (items.getD [])).2
      exact ⟨p, by simp only [fetchLoop, h1]; exact hp⟩

/-- C1 counterexample: a single failing request aborts the whole fetch.
The query variant `"dune"` holds a decodable response with one item, yet
because the variant `intitle:"dune"` raises, `fetch_raw_results`
propagates the exception instead of continuing with the remaining
variants. -/
theorem c1_counterexample :
    fetch_raw_results svcDune
        (fun q => if q = "dune" then .ok (some [itemFiction]) else .fail)
      = .error ()
    ∧ (fun q => if q = "dune" then Resp.ok (some [itemFiction]) else Resp.fail) "dune"
      = .ok (some [itemFiction]) :=
  ⟨rfl, rfl⟩

/-- C1 amended: if no request raises, the fetch always succeeds — a
decoded response with an absent or null `items` field (e.g. an
error-status JSON body) contributes zero items and fetching continues:
replacing such a response by an explicit empty item list changes
nothing.  (A raised exception — network error or non-decodable body —
aborts the whole fetch instead.) -/
theorem c1_failed_requests :
    (∀ (svc : Svc) (env : String → Resp), (∀ q, env q ≠ Resp.fail) →
      ∃ l, fetch_raw_results svc env = .ok l)
    ∧ (∀ (svc : Svc) (env : String → Resp) (q0 : String), env q0 = Resp.ok none →
      fetch_raw_results svc
          (fun q => if q = q0 then Resp.ok (some []) else env q)
        = fetch_raw_results svc env) := by
  constructor
  · intro svc env hfail
    obtain ⟨p, hp⟩ := fetchLoop_ok env hfail (baseQueries svc) [] []
    rw [fetch_raw_results_of_firstPass svc env p hp]
    by_cases hamb : is_ambiguous_title svc = true
    · rw [if_pos hamb]
      obtain ⟨p2, hp2⟩ := fetchLoop_ok env hfail
        (((extract_authors p.2).take 5).map (authorQuery svc)) p.1 p.2
      rw [hp2]
      exact ⟨p2.2, rfl⟩
    · rw [if_neg hamb]
      exact ⟨p.2, rfl⟩
  · intro svc env q0 hq0
    apply fetch_raw_results_congr
    intro q
    by_cases hq : q = q0
    · subst hq
      rw [hq0]
      simp [respNorm]
    · simp [hq]

/-- Witness for C1: a fail-free environment (every response decodes but
has no `items` field) fetches successfully, and patching one such
response to an empty item list changes nothing. -/
theorem c1_failed_requests_witness :
    (∃ l, fetch_raw_results svcDune (fun _ => Resp.ok none) = .ok l)
    ∧ fetch_raw_results svcDune
        (fun q => if q = "dune" then Resp.ok (some []) else (fun _ => Resp.ok none) q)
      = fetch_raw_results svcDune (fun _ => Resp.ok none) :=
  ⟨c1_failed_requests.1 svcDune (fun _ => Resp.ok none)
      (fun _ h => Resp.noConfusion h),
   c1_failed_requests.2 svcDune (fun _ => Resp.ok none) "dune" rfl⟩

end Bookshelf
